import Mathlib

/-!
Shallow embedding of the banking-assistant demo (app.py, db_utils.py):
the input validator, the output sanitizer, the agent control loop's
routing, and the read-only data-access functions, with theorems checking
the specification's claims about them.

Conventions of the embedding:
- The SQLite database is an explicit `Database` value threaded through the
  data-access functions (the Python code reads a module-global connection).
- Python strings are Lean `String`s; `str.lower()` is `pyLower` (ASCII
  lowering, which agrees with Python and with SQLite `lower()` on the
  ASCII-only patterns and column values involved); `pat in s` is
  `pyContains s pat`.
- SQLite compares TEXT values bytewise; on the ASCII ISO timestamps stored
  by the data generator that is codepoint-lexicographic order, embedded as
  `tsLe` on `List Char`.
- REAL columns (balances, amounts) are embedded as `Int`; no claim depends
  on fractional values.
-/

namespace BankingChat

/-- ASCII per-character lowering, as `str.lower()` / SQLite `lower()` act on
the ASCII strings this program compares. -/
def pyLower (s : String) : String :=
  String.mk (s.data.map Char.toLower)

/-- Substring containment on character lists: Python's `pat in hay`. -/
def listContainsSub (hay pat : List Char) : Bool :=
  match hay with
  | [] => pat.isEmpty
  | _ :: rest => pat.isPrefixOf hay || listContainsSub rest pat

/-- Python's `pat in hay` on strings. -/
def pyContains (hay pat : String) : Bool :=
  listContainsSub hay.data pat.data

/-- Python `str.isspace()` on one ASCII character: space or one of
\t, \n, \v, \f, \r (codepoints 9 to 13). -/
def pyIsSpaceChar (c : Char) : Bool :=
  c.toNat == 32 || (9 ≤ c.toNat && c.toNat ≤ 13)

/-- Python `s.isspace()`: nonempty and all characters whitespace. -/
def pyIsSpace (s : String) : Bool :=
  !s.isEmpty && s.data.all pyIsSpaceChar

/-- Bytewise text order of SQLite on ASCII strings (codepoint
lexicographic): the order `ORDER BY timestamp` / `ORDER BY account_type`
sorts by. -/
def tsLe (x y : List Char) : Bool :=
  match x, y with
  | [], _ => true
  | _ :: _, [] => false
  | a :: as, b :: bs =>
    if a.toNat < b.toNat then true
    else if b.toNat < a.toNat then false
    else tsLe as bs

/-- A row of the `customers` table (create_dummy_db.py schema). -/
structure Customer where
  id : Int
  name : String
  email : String
  phone : String
  address : String
  date_joined : String
deriving DecidableEq, Repr

/-- A row of the `accounts` table. -/
structure Account where
  id : Int
  customer_id : Int
  account_type : String
  balance : Int
  date_opened : String
deriving DecidableEq, Repr

/-- A row of the `transactions` table. -/
structure Transaction where
  id : Int
  account_id : Int
  amount : Int
  transaction_type : String
  timestamp : String
  description : String
deriving DecidableEq, Repr

/-- The SQLite database `banking.db`: its three tables, each a list of rows
in insertion (rowid) order. -/
structure Database where
  customers : List Customer
  accounts : List Account
  transactions : List Transaction
deriving DecidableEq, Repr

/-- `ORDER BY account_type` (ascending) as a relation on account rows. -/
def accountTypeLe (a b : Account) : Prop :=
  tsLe a.account_type.data b.account_type.data = true

/-- `ORDER BY timestamp DESC` as a relation on transaction rows: `a` comes
at or before `b` when `a`'s timestamp is at least `b`'s. -/
def txTimeGe (a b : Transaction) : Prop :=
  tsLe b.timestamp.data a.timestamp.data = true

instance : DecidableRel accountTypeLe := fun a b => by
  unfold accountTypeLe; infer_instance

instance : DecidableRel txTimeGe := fun a b => by
  unfold txTimeGe; infer_instance

/-- db_utils.get_customer_by_name: `SELECT * FROM customers WHERE
lower(name) LIKE lower('%' || name || '%') LIMIT 1`, then `fetchone`.
For a search string without LIKE metacharacters the pattern `%name%`
matches exactly the rows whose lowered name contains the lowered search
string; `LIMIT 1`/`fetchone` yields the first such row or `none`. -/
def get_customer_by_name (db : Database) (name : String) : Option Customer :=
  (db.customers.filter fun row => pyContains (pyLower row.name) (pyLower name)).head?

/-- db_utils.get_customer_by_id: `SELECT * FROM customers WHERE id = ?`,
then `fetchone`. -/
def get_customer_by_id (db : Database) (customer_id : Int) : Option Customer :=
  (db.customers.filter fun row => row.id == customer_id).head?

/-- db_utils.get_accounts_for_customer: `SELECT * FROM accounts WHERE
customer_id = ? ORDER BY account_type`, then `fetchall`. -/
def get_accounts_for_customer (db : Database) (customer_id : Int) : List Account :=
  List.insertionSort accountTypeLe (db.accounts.filter fun row => row.customer_id == customer_id)

/-- db_utils.get_account_by_id: `SELECT * FROM accounts WHERE id = ?`,
then `fetchone`. -/
def get_account_by_id (db : Database) (account_id : Int) : Option Account :=
  (db.accounts.filter fun row => row.id == account_id).head?

/-- db_utils.get_transactions_for_account: `SELECT * FROM transactions
WHERE account_id = ? ORDER BY timestamp DESC LIMIT ?`, then `fetchall`.
The Python signature declares `limit=20`. -/
def get_transactions_for_account (db : Database) (account_id : Int) (limit : Nat := 20) : List Transaction :=
  (List.insertionSort txTimeGe (db.transactions.filter fun row => row.account_id == account_id)).take limit

/-- The argument mapping of a requested tool call, typed per tool; `raw`
stands for an argument object fitting no registered tool's schema. In
`forAccount`, `none` is an omitted `limit` argument. -/
inductive ToolArgs where
  | byName (name : String)
  | byId (customer_id : Int)
  | forCustomer (customer_id : Int)
  | forAccount (account_id : Int) (limit : Option Nat)
  | raw (payload : String)
deriving DecidableEq, Repr

/-- A ToolCall entry of a langchain AIMessage: name, arguments, call id. -/
structure ToolCall where
  id : String
  name : String
  args : ToolArgs
deriving DecidableEq, Repr

/-- langchain AIMessage: text content (None embedded as `none`) and the
list of requested tool calls (constructing with `tool_calls=None`
normalizes to the empty list, as langchain does). -/
structure AIMessage where
  content : Option String
  tool_calls : List ToolCall
deriving DecidableEq, Repr

/-- The structured payload a tool execution wraps into a ToolMessage. -/
inductive ToolResult where
  | customerResult (c : Option Customer)
  | accountsResult (l : List Account)
  | transactionsResult (l : List Transaction)
  | toolError (e : String)
deriving DecidableEq, Repr

/-- A message of the conversation state: HumanMessage, AIMessage or
ToolMessage (the latter tagged with the id of the call it answers). -/
inductive Message where
  | human (content : String)
  | ai (msg : AIMessage)
  | tool (tool_call_id : String) (content : ToolResult)
deriving DecidableEq, Repr

/-- A registry entry as the sanitizer sees it: `tool.name`. -/
structure ToolSpec where
  name : String
deriving DecidableEq, Repr

/-- app.py `tools`: the list of the four registered @tool wrappers, whose
names are the wrapped functions' names. -/
def tools : List ToolSpec :=
  [⟨"get_customer_by_name_tool"⟩,
   ⟨"get_customer_by_id_tool"⟩,
   ⟨"get_accounts_for_customer_tool"⟩,
   ⟨"get_transactions_for_account_tool"⟩]

/-- app.py get_customer_by_name_tool. -/
def get_customer_by_name_tool (db : Database) (name : String) : Option Customer :=
  get_customer_by_name db name

/-- app.py get_customer_by_id_tool. -/
def get_customer_by_id_tool (db : Database) (customer_id : Int) : Option Customer :=
  get_customer_by_id db customer_id

/-- app.py get_accounts_for_customer_tool. -/
def get_accounts_for_customer_tool (db : Database) (customer_id : Int) : List Account :=
  get_accounts_for_customer db customer_id

/-- app.py get_transactions_for_account_tool: its Python signature declares
`limit: int = 10` and forwards `limit` to db_utils. -/
def get_transactions_for_account_tool (db : Database) (account_id : Int) (limit : Nat := 10) : List Transaction :=
  get_transactions_for_account db account_id limit

/-- app.py `dangerous_patterns` of validate_user_input, in source order. -/
def dangerous_patterns : List String :=
  ["DROP", "DELETE", "UPDATE", "INSERT", "SELECT", "--",
   "/*", "*/", "EXEC", "EXECUTE", ";", "CREATE", "ALTER",
   "<script>", "</script>", "javascript:", "onerror=", "onload="]

/-- app.py validate_user_input: `(is_valid, error_message)`. The checks run
in source order: empty-or-whitespace, then length above 500, then the first
dangerous pattern contained case-insensitively. -/
def validate_user_input (input_text : String) : Bool × String :=
  if input_text.isEmpty || pyIsSpace input_text then
    (false, "Input cannot be empty or just whitespace.")
  else if 500 < input_text.length then
    (false, "Input exceeds maximum allowed length of 500 characters.")
  else
    match dangerous_patterns.find? (fun pattern => pyContains (pyLower input_text) (pyLower pattern)) with
    | some pattern => (false, "Input contains potentially unsafe pattern: " ++ pattern)
    | none => (true, "")

/-- What the `st.chat_input` handler does with a submitted prompt: an
invalid prompt is reported and not forwarded; a valid one becomes the
graph input `{"messages": [HumanMessage(content=prompt)]}`. -/
inductive HandlerOutcome where
  | rejected (error_message : String)
  | forwarded (graph_input : List Message)
deriving DecidableEq, Repr

/-- app.py chat-input handling (lines 247-266): validate, then either
surface the error or forward the prompt to the graph. -/
def chat_input_handler (prompt : String) : HandlerOutcome :=
  let v := validate_user_input prompt
  if !v.fst then HandlerOutcome.rejected v.snd
  else HandlerOutcome.forwarded [Message.human prompt]

/-- app.py `harmful_patterns` of validate_and_sanitize_output, in source
order. -/
def harmful_patterns : List String :=
  ["sudo", "rm -rf", "del /", "format", "DROP TABLE", "DELETE FROM",
   "INSERT INTO", "UPDATE", "exec(", "eval(", "os.", "subprocess.", "system("]

/-- The fixed refusal string substituted when harmful content is found. -/
def security_refusal : String :=
  "I apologize, but I cannot provide that information or perform that action for security reasons."

/-- `any(pattern.lower() in content.lower() for pattern in harmful_patterns)`. -/
def contains_harmful_content (content : String) : Bool :=
  harmful_patterns.any fun pattern => pyContains (pyLower content) (pyLower pattern)

/-- What the LLM invocation returned: an AIMessage, or an object of some
other type (with or without a `content` attribute holding text). -/
inductive LLMResponse where
  | aiMessage (msg : AIMessage)
  | notAIMessage (content : Option String)
deriving DecidableEq, Repr

/-- app.py validate_and_sanitize_output. Shape check: a non-AIMessage is
coerced to one from its content, or to a fixed apology. Allow-listing: the
requested calls are filtered by registry name; if any call was dropped the
function returns the rebuilt message at once. Otherwise the text content is
screened against `harmful_patterns` and replaced by `security_refusal` on a
match; else the response passes through unchanged. -/
def validate_and_sanitize_output (response : LLMResponse) (allowed_tools : List ToolSpec) : AIMessage :=
  match response with
  | LLMResponse.notAIMessage (some c) => { content := some c, tool_calls := [] }
  | LLMResponse.notAIMessage none =>
      { content := some "I apologize, but I encountered an unexpected response format.", tool_calls := [] }
  | LLMResponse.aiMessage response =>
      let allowed_tool_names := allowed_tools.map ToolSpec.name
      let valid_tool_calls := response.tool_calls.filter fun tool_call => allowed_tool_names.contains tool_call.name
      if !response.tool_calls.isEmpty && valid_tool_calls.length != response.tool_calls.length then
        { content := response.content, tool_calls := valid_tool_calls }
      else if contains_harmful_content (response.content.getD "") then
        { content := some security_refusal, tool_calls := [] }
      else
        response

/-- The outcome of `llm.invoke(messages)` inside call_model's `try`: a
response object, or a raised exception carrying the text `str(e)`. -/
inductive ModelResult where
  | ok (response : LLMResponse)
  | raised (e : String)
deriving DecidableEq, Repr

/-- The fixed prefix of the in-flow error message of call_model's
`except` branch. -/
def model_error_text (e : String) : String :=
  "Sorry, I encountered an error calling the model: " ++ e

/-- The single AIMessage call_model returns: the sanitized model response,
or the in-flow error AIMessage built in the `except` branch. -/
def call_model_output (result : ModelResult) : AIMessage :=
  match result with
  | ModelResult.ok response => validate_and_sanitize_output response tools
  | ModelResult.raised e => { content := some (model_error_text e), tool_calls := [] }

/-- app.py call_model: the "agent" node. Returns the messages delta
`{"messages": [...]}` that the `operator.add` reducer appends to the
state; `messages` is the state the model was invoked on. -/
def call_model (messages : List Message) (result : ModelResult) : List Message :=
  [Message.ai (call_model_output result)]

/-- Dispatch of one requested call against the registered tools, as
ToolNode resolves a call by name. -/
def run_tool (db : Database) (tool_call : ToolCall) : ToolResult :=
  match tool_call.name, tool_call.args with
  | "get_customer_by_name_tool", ToolArgs.byName n =>
      ToolResult.customerResult (get_customer_by_name_tool db n)
  | "get_customer_by_id_tool", ToolArgs.byId i =>
      ToolResult.customerResult (get_customer_by_id_tool db i)
  | "get_accounts_for_customer_tool", ToolArgs.forCustomer i =>
      ToolResult.accountsResult (get_accounts_for_customer_tool db i)
  | "get_transactions_for_account_tool", ToolArgs.forAccount aid (some limit) =>
      ToolResult.transactionsResult (get_transactions_for_account_tool db aid limit)
  | "get_transactions_for_account_tool", ToolArgs.forAccount aid none =>
      ToolResult.transactionsResult (get_transactions_for_account_tool db aid)
  | _, _ => ToolResult.toolError "tool not found or invalid arguments"

/-- The prebuilt ToolNode: executes every tool call of the last (AI)
message and returns the delta of ToolMessages, one per call, in call
order, each tagged with its originating call id. -/
def tool_node (db : Database) (messages : List Message) : List Message :=
  match messages.getLast? with
  | some (Message.ai m) => m.tool_calls.map fun tc => Message.tool tc.id (run_tool db tc)
  | _ => []

/-- langgraph's END sentinel. -/
def END : String := "__end__"

/-- app.py should_continue: routes on the last message of the state. -/
def should_continue (messages : List Message) : String :=
  match messages.getLast? with
  | some (Message.ai m) => if !m.tool_calls.isEmpty then "tools" else END
  | _ => END

/-- The mapping of `builder.add_conditional_edges("agent", should_continue, ...)`. -/
def conditional_edge_map : List (String × String) :=
  [("tools", "tools"), (END, END)]

/-- The plain edges of the graph: `builder.add_edge("tools", "agent")`. -/
def graph_edges : List (String × String) :=
  [("tools", "agent")]

/-- `builder.set_entry_point("agent")`. -/
def entry_point : String := "agent"

/-- The node the compiled graph runs after "agent": should_continue's
verdict routed through the conditional-edge mapping. -/
def next_node_after_agent (messages : List Message) : String :=
  (conditional_edge_map.lookup (should_continue messages)).getD END

/-- The node the compiled graph runs after "tools": its single plain edge. -/
def next_node_after_tools : String :=
  (graph_edges.lookup "tools").getD END

/-- The states the graph reaches within a turn from a starting message
list: each node appends its returned delta to the state (`operator.add`
on the `messages` field of AgentState). -/
inductive GraphReachable (db : Database) : List Message → List Message → Prop where
  | refl (s : List Message) : GraphReachable db s s
  | agent_step (s t : List Message) (mr : ModelResult) :
      GraphReachable db s t → GraphReachable db s (t ++ call_model t mr)
  | tools_step (s t : List Message) :
      GraphReachable db s t → GraphReachable db s (t ++ tool_node db t)

/-! Concrete data used to exercise the theorems on explicit inputs. -/

/-- A database with no rows. -/
def empty_db : Database := ⟨[], [], []⟩

/-- A small concrete database: one customer, one account, three
transactions (two on account 1, one on account 2). -/
def sample_db : Database :=
  ⟨[⟨1, "Alice Smith", "alice@example.com", "555-0100", "1 Main St", "2020-01-01"⟩],
   [⟨1, 1, "Checking", 1000, "2021-01-01"⟩],
   [⟨1, 1, 100, "Deposit", "2024-01-02T00:00:00", "salary"⟩,
    ⟨2, 1, 50, "Withdrawal", "2024-01-03T00:00:00", "groceries"⟩,
    ⟨3, 2, 10, "Deposit", "2024-01-01T00:00:00", "misc"⟩]⟩

/-- A model response whose text contains harmful tokens and that also
requests one unregistered tool call. -/
def dropped_call_harmful_response : LLMResponse :=
  LLMResponse.aiMessage
    ⟨some "Run sudo rm -rf / now",
     [⟨"call_1", "delete_all_accounts_tool", ToolArgs.raw "{}"⟩]⟩

/-! Helper lemmas about the embedding's primitives. -/

theorem tsLe_refl (x : List Char) : tsLe x x = true := by
  induction x with
  | nil => rfl
  | cons a as ih => simp [tsLe, ih]

theorem tsLe_total (x y : List Char) : tsLe x y = true ∨ tsLe y x = true := by
  induction x generalizing y with
  | nil => left; rfl
  | cons a as ih =>
    cases y with
    | nil => right; rfl
    | cons b bs =>
      rcases Nat.lt_trichotomy a.toNat b.toNat with h | h | h
      · left; simp [tsLe, h]
      · have h2 : ¬ a.toNat < b.toNat := by omega
        have h3 : ¬ b.toNat < a.toNat := by omega
        rcases ih bs with hc | hc
        · left; simp [tsLe, h2, h3, hc]
        · right; simp [tsLe, h2, h3, hc]
      · right; simp [tsLe, h]

theorem tsLe_trans (x : List Char) : ∀ y z, tsLe x y = true → tsLe y z = true → tsLe x z = true := by
  induction x with
  | nil => intro y z _ _; rfl
  | cons a as ih =>
    intro y z hxy hyz
    cases y with
    | nil => simp [tsLe] at hxy
    | cons b bs =>
      cases z with
      | nil => simp [tsLe] at hyz
      | cons c cs =>
        rcases Nat.lt_trichotomy a.toNat b.toNat with hab | hab | hab
        · rcases Nat.lt_trichotomy b.toNat c.toNat with hbc | hbc | hbc
          · simp [tsLe, show a.toNat < c.toNat by omega]
          · simp [tsLe, show a.toNat < c.toNat by omega]
          · simp [tsLe, show ¬ b.toNat < c.toNat by omega, hbc] at hyz
        · rcases Nat.lt_trichotomy b.toNat c.toNat with hbc | hbc | hbc
          · simp [tsLe, show a.toNat < c.toNat by omega]
          · have hac : ¬ a.toNat < c.toNat := by omega
            have hca : ¬ c.toNat < a.toNat := by omega
            simp only [tsLe, show ¬ a.toNat < b.toNat by omega, show ¬ b.toNat < a.toNat by omega, if_neg, ite_false, if_false] at hxy
            simp only [tsLe, show ¬ b.toNat < c.toNat by omega, show ¬ c.toNat < b.toNat by omega] at hyz
            simp only [tsLe, hac, hca]
            simp at hxy hyz ⊢
            exact ih bs cs hxy hyz
          · simp [tsLe, show ¬ b.toNat < c.toNat by omega, hbc] at hyz
        · simp [tsLe, show ¬ a.toNat < b.toNat by omega, hab] at hxy

instance : IsTotal Account accountTypeLe where
  total a b := tsLe_total a.account_type.data b.account_type.data

instance : IsTrans Account accountTypeLe where
  trans a b c hab hbc := tsLe_trans a.account_type.data b.account_type.data c.account_type.data hab hbc

instance : IsTotal Transaction txTimeGe where
  total a b := tsLe_total b.timestamp.data a.timestamp.data

instance : IsTrans Transaction txTimeGe where
  trans a b c hab hbc := tsLe_trans c.timestamp.data b.timestamp.data a.timestamp.data hbc hab

theorem listContainsSub_nil_pat (hay : List Char) : listContainsSub hay [] = true := by
  cases hay with
  | nil => rfl
  | cons c rest => simp [listContainsSub, List.isPrefixOf]

theorem listContainsSub_of_isPrefix (hay pat : List Char) (h : pat <+: hay) :
    listContainsSub hay pat = true := by
  cases hay with
  | nil =>
    have : pat = [] := List.prefix_nil.mp h
    simp [this, listContainsSub]
  | cons c rest =>
    simp [listContainsSub, List.isPrefixOf_iff_prefix.mpr h]

theorem filter_length_all {α : Type} (p : α → Bool) :
    ∀ l : List α, (l.filter p).length = l.length → ∀ a ∈ l, p a = true := by
  intro l
  induction l with
  | nil => intro _ a ha; cases ha
  | cons x xs ih =>
    intro h a ha
    by_cases hx : p x = true
    · rw [List.filter_cons_of_pos hx] at h
      rcases List.mem_cons.mp ha with rfl | hmem
      · exact hx
      · exact ih (by simpa using h) a hmem
    · rw [List.filter_cons_of_neg hx] at h
      have hle := List.length_filter_le p xs
      simp at h
      omega

/-! Claim theorems. -/

/-- C1 (counterexample): a response whose content contains harmful tokens
("sudo", "rm -rf") but which also carries a dropped (unregistered) tool
call is returned by the early tool-filtering return with its content
intact, not the fixed refusal string, refuting the claim's "regardless of
whether the response also carried tool calls". -/
theorem sanitizer_harmful_bypass_counterexample :
    contains_harmful_content "Run sudo rm -rf / now" = true
    ∧ (validate_and_sanitize_output dropped_call_harmful_response tools).content ≠ some security_refusal
    ∧ validate_and_sanitize_output dropped_call_harmful_response tools
        ≠ { content := some security_refusal, tool_calls := [] } := by
  refine ⟨by decide, by decide, by decide⟩

/-- C1 (amended): if none of the response's requested tool calls is
dropped (each requested name is registry-known; in particular if there are
no tool calls at all), then a response whose text contains a harmful token
is replaced by the fixed refusal message with no tool calls. When a call
is dropped, the early return skips the harmful-content screen. -/
theorem sanitizer_refusal_when_no_call_dropped
    (r : AIMessage) (allowed_tools : List ToolSpec)
    (hcalls : ∀ tc ∈ r.tool_calls, tc.name ∈ allowed_tools.map ToolSpec.name)
    (hharm : contains_harmful_content (r.content.getD "") = true) :
    validate_and_sanitize_output (LLMResponse.aiMessage r) allowed_tools =
      { content := some security_refusal, tool_calls := [] } := by
  have hfilter : (r.tool_calls.filter fun tool_call => (allowed_tools.map ToolSpec.name).contains tool_call.name) = r.tool_calls :=
    List.filter_eq_self.mpr fun tc htc => List.elem_eq_true_of_mem (hcalls tc htc)
  simp only [validate_and_sanitize_output, hfilter]
  simp [hharm]

/-- Witness for the amended C1: a harmful-content response whose single
tool call is registered is refused verbatim. -/
theorem sanitizer_refusal_when_no_call_dropped_witness :
    validate_and_sanitize_output
      (LLMResponse.aiMessage ⟨some "you should use sudo for that",
        [⟨"call_7", "get_customer_by_id_tool", ToolArgs.byId 1⟩]⟩) tools =
      { content := some security_refusal, tool_calls := [] } :=
  sanitizer_refusal_when_no_call_dropped
    ⟨some "you should use sudo for that", [⟨"call_7", "get_customer_by_id_tool", ToolArgs.byId 1⟩]⟩
    tools (by decide) (by decide)

/-- C2: every tool call surviving in the sanitizer's output bears a name
from the allowed-tools list; calls with unregistered names never appear in
the returned AssistantMessage. -/
theorem sanitizer_output_only_registered_tools
    (response : LLMResponse) (allowed_tools : List ToolSpec) :
    ∀ tc ∈ (validate_and_sanitize_output response allowed_tools).tool_calls,
      tc.name ∈ allowed_tools.map ToolSpec.name := by
  intro tc htc
  match response with
  | LLMResponse.notAIMessage (some c) => simp [validate_and_sanitize_output] at htc
  | LLMResponse.notAIMessage none => simp [validate_and_sanitize_output] at htc
  | LLMResponse.aiMessage r =>
    simp only [validate_and_sanitize_output] at htc
    split at htc
    · exact List.mem_of_elem_eq_true (List.mem_filter.mp htc).2
    · rename_i hcond
      split at htc
      · simp at htc
      · have hpass : tc ∈ r.tool_calls := htc
        rw [Bool.and_eq_true, not_and] at hcond
        by_cases hemp : r.tool_calls.isEmpty = true
        · simp [List.isEmpty_iff.mp hemp] at hpass
        · have hA : (!r.tool_calls.isEmpty) = true := by simp [hemp]
          have hB := hcond hA
          rw [bne_iff_ne] at hB
          have hlen := not_not.mp hB
          exact List.mem_of_elem_eq_true
            (filter_length_all (fun tool_call => (allowed_tools.map ToolSpec.name).contains tool_call.name)
              r.tool_calls hlen tc hpass)

/-- Witness for C2. -/
theorem sanitizer_output_only_registered_tools_witness :
    ("get_customer_by_id_tool" : String) ∈ tools.map ToolSpec.name :=
  sanitizer_output_only_registered_tools
    (LLMResponse.aiMessage ⟨some "ok",
      [⟨"c1", "get_customer_by_id_tool", ToolArgs.byId 1⟩,
       ⟨"c2", "evil_tool", ToolArgs.raw "{}"⟩]⟩) tools
    ⟨"c1", "get_customer_by_id_tool", ToolArgs.byId 1⟩ (by decide)

/-- C3: a raised model-invocation exception is converted into a single
well-formed AssistantMessage containing the apology text (the message
contains the fixed "Sorry, ..." prefix), is the only message appended, and
the loop then routes to END (the turn terminates) rather than
propagating. -/
theorem call_model_converts_model_failure (messages : List Message) (e : String) :
    call_model messages (ModelResult.raised e) = [Message.ai ⟨some (model_error_text e), []⟩]
    ∧ pyContains (model_error_text e) "Sorry, I encountered an error calling the model: " = true
    ∧ should_continue (messages ++ call_model messages (ModelResult.raised e)) = END
    ∧ next_node_after_agent (messages ++ call_model messages (ModelResult.raised e)) = END := by
  have hsc : should_continue (messages ++ call_model messages (ModelResult.raised e)) = END := by
    show should_continue (messages ++ [Message.ai ⟨some (model_error_text e), []⟩]) = END
    unfold should_continue
    rw [List.getLast?_concat]
    rfl
  refine ⟨rfl, ?_, hsc, ?_⟩
  · apply listContainsSub_of_isPrefix
    show ("Sorry, I encountered an error calling the model: " : String).data
      <+: (("Sorry, I encountered an error calling the model: " : String) ++ e).data
    rw [String.data_append]
    exact List.prefix_append _ _
  · unfold next_node_after_agent
    rw [hsc]
    decide

/-- C4 (counterexample): two model-invocation failures with different
exception details produce different user-visible messages, refuting "the
user-visible apology message is the same generic text" and "does not
depend on the exception's detail". -/
theorem model_error_message_not_generic_counterexample :
    call_model [] (ModelResult.raised "connection refused")
      ≠ call_model [] (ModelResult.raised "model not found") := by
  decide

/-- C4 (amended): the apology produced for a model-invocation failure is
not generic: it is the fixed prefix followed by the exception's detail
(`f"Sorry, I encountered an error calling the model: {e}"`), so failures
with different details yield different terminal AssistantMessages. -/
theorem model_error_message_embeds_detail
    (messages : List Message) (e1 e2 : String) (h : e1 ≠ e2) :
    call_model messages (ModelResult.raised e1) = [Message.ai ⟨some (model_error_text e1), []⟩]
    ∧ call_model messages (ModelResult.raised e1) ≠ call_model messages (ModelResult.raised e2) := by
  refine ⟨rfl, ?_⟩
  intro heq
  apply h
  have hstr : model_error_text e1 = model_error_text e2 := by
    simpa [call_model, call_model_output] using heq
  have hdata := congrArg String.data hstr
  rw [model_error_text, model_error_text, String.data_append, String.data_append] at hdata
  exact String.ext (List.append_cancel_left hdata)

/-- Witness for the amended C4 at two concrete exception details. -/
theorem model_error_message_embeds_detail_witness :
    call_model [] (ModelResult.raised "timeout") = [Message.ai ⟨some (model_error_text "timeout"), []⟩]
    ∧ call_model [] (ModelResult.raised "timeout") ≠ call_model [] (ModelResult.raised "refused") :=
  model_error_message_embeds_detail [] "timeout" "refused" (by decide)

/-- C5: after the model/sanitizer step the loop routes to the tool node
exactly when the sanitized AssistantMessage carries at least one surviving
tool call, and to END otherwise; after the tool node the graph's only edge
leads unconditionally back to the "agent" (model) node. -/
theorem agent_graph_routing (messages : List Message) (mr : ModelResult) :
    (should_continue (messages ++ call_model messages mr) = "tools"
        ↔ (call_model_output mr).tool_calls ≠ [])
    ∧ (next_node_after_agent (messages ++ call_model messages mr) = "tools"
        ↔ (call_model_output mr).tool_calls ≠ [])
    ∧ ((call_model_output mr).tool_calls = []
        → next_node_after_agent (messages ++ call_model messages mr) = END)
    ∧ next_node_after_tools = "agent" := by
  have hsc : should_continue (messages ++ call_model messages mr)
      = if !(call_model_output mr).tool_calls.isEmpty then "tools" else END := by
    show should_continue (messages ++ [Message.ai (call_model_output mr)]) = _
    unfold should_continue
    rw [List.getLast?_concat]
  cases h : (call_model_output mr).tool_calls with
  | nil =>
    have hend : should_continue (messages ++ call_model messages mr) = END := by
      rw [hsc, h]; rfl
    have hnext : next_node_after_agent (messages ++ call_model messages mr) = END := by
      unfold next_node_after_agent
      rw [hend]
      decide
    refine ⟨?_, ?_, fun _ => hnext, rfl⟩
    · rw [hend]
      exact ⟨fun hh => absurd hh (by decide), fun hh => absurd rfl hh⟩
    · rw [hnext]
      exact ⟨fun hh => absurd hh (by decide), fun hh => absurd rfl hh⟩
  | cons tc tcs =>
    have htools : should_continue (messages ++ call_model messages mr) = "tools" := by
      rw [hsc, h]; rfl
    have hnext : next_node_after_agent (messages ++ call_model messages mr) = "tools" := by
      unfold next_node_after_agent
      rw [htools]
      decide
    refine ⟨?_, ?_, fun hc => absurd (h ▸ hc) (List.cons_ne_nil tc tcs), rfl⟩
    · rw [htools]
      exact ⟨fun _ => List.cons_ne_nil tc tcs, fun _ => rfl⟩
    · rw [hnext]
      exact ⟨fun _ => List.cons_ne_nil tc tcs, fun _ => rfl⟩

/-- Witness for C5: a tool-call-free terminal response routes to END, and
the tools node's outgoing edge is "agent". -/
theorem agent_graph_routing_witness :
    next_node_after_agent ([Message.human "hi"] ++ call_model [Message.human "hi"] (ModelResult.raised "x")) = END
    ∧ next_node_after_tools = "agent" :=
  ⟨(agent_graph_routing [Message.human "hi"] (ModelResult.raised "x")).2.2.1 (by decide),
   (agent_graph_routing [Message.human "hi"] (ModelResult.raised "x")).2.2.2⟩

/-- C6: the input validator fails exactly on empty-or-whitespace input,
input longer than 500 characters, or input containing (case-insensitively)
a dangerous pattern; the reported reason names the length bound
respectively the first matched pattern; and an invalid prompt is never
forwarded to the agent graph. -/
theorem validate_user_input_spec (t : String) :
    ((validate_user_input t).fst = false ↔
      (t.isEmpty = true ∨ pyIsSpace t = true ∨ 500 < t.length
        ∨ ∃ p ∈ dangerous_patterns, pyContains (pyLower t) (pyLower p) = true))
    ∧ ((validate_user_input t).fst = false →
        ∀ msgs, chat_input_handler t ≠ HandlerOutcome.forwarded msgs)
    ∧ (t.isEmpty = false → pyIsSpace t = false → 500 < t.length →
        (validate_user_input t).snd = "Input exceeds maximum allowed length of 500 characters.")
    ∧ (∀ p, dangerous_patterns.find? (fun q => pyContains (pyLower t) (pyLower q)) = some p →
        t.isEmpty = false → pyIsSpace t = false → t.length ≤ 500 →
        (validate_user_input t).snd = "Input contains potentially unsafe pattern: " ++ p
          ∧ p ∈ dangerous_patterns ∧ pyContains (pyLower t) (pyLower p) = true) := by
  by_cases h1 : (t.isEmpty || pyIsSpace t) = true
  · have hv : validate_user_input t = (false, "Input cannot be empty or just whitespace.") := by
      unfold validate_user_input
      rw [if_pos h1]
    rcases Bool.or_eq_true_iff.mp h1 with he | hs
    · refine ⟨⟨fun _ => Or.inl he, fun _ => by rw [hv]⟩, ?_, ?_, ?_⟩
      · intro _ msgs
        simp [chat_input_handler, hv]
      · intro hemp _ _
        rw [he] at hemp
        cases hemp
      · intro p _ hemp _ _
        rw [he] at hemp
        cases hemp
    · refine ⟨⟨fun _ => Or.inr (Or.inl hs), fun _ => by rw [hv]⟩, ?_, ?_, ?_⟩
      · intro _ msgs
        simp [chat_input_handler, hv]
      · intro _ hsp _
        rw [hs] at hsp
        cases hsp
      · intro p _ _ hsp _
        rw [hs] at hsp
        cases hsp
  · have h1b : (t.isEmpty || pyIsSpace t) = false := by
      cases h : t.isEmpty || pyIsSpace t
      · rfl
      · exact absurd h h1
    have h1f := Bool.or_eq_false_iff.mp h1b
    by_cases h2 : 500 < t.length
    · have hv : validate_user_input t = (false, "Input exceeds maximum allowed length of 500 characters.") := by
        unfold validate_user_input
        rw [if_neg h1, if_pos h2]
      refine ⟨⟨fun _ => Or.inr (Or.inr (Or.inl h2)), fun _ => by rw [hv]⟩, ?_, ?_, ?_⟩
      · intro _ msgs
        simp [chat_input_handler, hv]
      · intro _ _ _
        rw [hv]
      · intro p _ _ _ hlen
        omega
    · cases hfind : dangerous_patterns.find? (fun q => pyContains (pyLower t) (pyLower q)) with
      | some p =>
        have hv : validate_user_input t = (false, "Input contains potentially unsafe pattern: " ++ p) := by
          unfold validate_user_input
          rw [if_neg h1, if_neg h2, hfind]
        have hmem := List.mem_of_find?_eq_some hfind
        have hpred := List.find?_some hfind
        refine ⟨⟨fun _ => Or.inr (Or.inr (Or.inr ⟨p, hmem, hpred⟩)), fun _ => by rw [hv]⟩, ?_, ?_, ?_⟩
        · intro _ msgs
          simp [chat_input_handler, hv]
        · intro _ _ h500
          exact absurd h500 h2
        · intro q hq _ _ _
          injection hq with hpq
          subst hpq
          exact ⟨by rw [hv], hmem, hpred⟩
      | none =>
        have hv : validate_user_input t = (true, "") := by
          unfold validate_user_input
          rw [if_neg h1, if_neg h2, hfind]
        refine ⟨⟨fun hf => ?_, fun hr => ?_⟩, ?_, ?_, ?_⟩
        · rw [hv] at hf
          cases hf
        · exfalso
          rcases hr with he | hs | h500 | ⟨p, hp, hc⟩
          · rw [he] at h1f
            cases h1f.1
          · rw [hs] at h1f
            cases h1f.2
          · exact h2 h500
          · exact List.find?_eq_none.mp hfind p hp hc
        · intro hf
          rw [hv] at hf
          cases hf
        · intro _ _ h500
          exact absurd h500 h2
        · intro p hp _ _ _
          exact Option.noConfusion hp

/-- Witness for C6: a prompt containing "DROP" is rejected, not forwarded,
and its reason names the matched pattern. -/
theorem validate_user_input_spec_witness :
    (validate_user_input "DROP the table").fst = false
    ∧ chat_input_handler "DROP the table" ≠ HandlerOutcome.forwarded [Message.human "DROP the table"]
    ∧ (validate_user_input "DROP the table").snd = "Input contains potentially unsafe pattern: " ++ "DROP" :=
  ⟨(validate_user_input_spec "DROP the table").1.mpr (Or.inr (Or.inr (Or.inr ⟨"DROP", by decide, by decide⟩))),
   (validate_user_input_spec "DROP the table").2.1 (by decide) [Message.human "DROP the table"],
   ((validate_user_input_spec "DROP the table").2.2.2 "DROP" (by decide) (by decide) (by decide) (by decide)).1⟩

/-- C7: within a turn the message history only grows: every state the
graph reaches from a starting state extends it, the prior message sequence
being a prefix of the new one (nothing is removed or reordered). -/
theorem conversation_history_append_only (db : Database) (s t : List Message)
    (h : GraphReachable db s t) : s <+: t := by
  induction h with
  | refl => exact List.prefix_rfl
  | agent_step v mr hr ih => exact ih.trans (List.prefix_append v (call_model v mr))
  | tools_step v hr ih => exact ih.trans (List.prefix_append v (tool_node db v))

/-- Witness for C7: one agent step from a one-message state keeps that
state as a prefix. -/
theorem conversation_history_append_only_witness :
    [Message.human "hi"] <+: [Message.human "hi"] ++ call_model [Message.human "hi"] (ModelResult.raised "x") :=
  conversation_history_append_only empty_db _ _
    (GraphReachable.agent_step _ _ (ModelResult.raised "x") (GraphReachable.refl _))

/-- C8: invoking the transactions tool without a limit argument applies
its declared default of 10, so at most 10 transactions are returned. -/
theorem transactions_tool_default_limit (db : Database) (account_id : Int) :
    get_transactions_for_account_tool db account_id = get_transactions_for_account db account_id 10
    ∧ (get_transactions_for_account_tool db account_id).length ≤ 10 := by
  refine ⟨rfl, ?_⟩
  show ((List.insertionSort txTimeGe (db.transactions.filter fun row => row.account_id == account_id)).take 10).length ≤ 10
  exact List.length_take_le 10 _

/-- C9: the transactions query returns a sequence sorted descending by
timestamp (in particular the first element's timestamp is at least the
last's), and an account with no transactions yields the empty list. -/
theorem transactions_sorted_descending (db : Database) (account_id : Int) (limit : Nat) :
    List.Sorted txTimeGe (get_transactions_for_account db account_id limit)
    ∧ (∀ a b, (get_transactions_for_account db account_id limit).head? = some a →
        (get_transactions_for_account db account_id limit).getLast? = some b →
        tsLe b.timestamp.data a.timestamp.data = true)
    ∧ ((∀ tx ∈ db.transactions, tx.account_id ≠ account_id) →
        get_transactions_for_account db account_id limit = []) := by
  have hsorted : List.Sorted txTimeGe (get_transactions_for_account db account_id limit) := by
    unfold get_transactions_for_account
    exact List.Pairwise.sublist (List.take_sublist limit _) (List.sorted_insertionSort txTimeGe _)
  refine ⟨hsorted, ?_, ?_⟩
  · intro a b hh hl
    cases hres : get_transactions_for_account db account_id limit with
    | nil =>
      rw [hres] at hh
      cases hh
    | cons x xs =>
      rw [hres] at hh hl hsorted
      rw [List.head?_cons] at hh
      injection hh with hax
      subst hax
      rcases List.mem_cons.mp (List.mem_of_mem_getLast? hl) with rfl | hbx
      · exact tsLe_refl _
      · exact (List.pairwise_cons.mp hsorted).1 b hbx
  · intro hnone
    have hfil : db.transactions.filter (fun row => row.account_id == account_id) = [] :=
      List.filter_eq_nil_iff.mpr fun tx htx => by simpa using hnone tx htx
    unfold get_transactions_for_account
    rw [hfil]
    show ([] : List Transaction).take limit = []
    exact List.take_nil

/-- Witness for C9: on the sample database, account 1's first listed
transaction is at least as recent as its last, and account 99 (which has
no transactions) yields the empty list. -/
theorem transactions_sorted_descending_witness :
    tsLe ("2024-01-02T00:00:00" : String).data ("2024-01-03T00:00:00" : String).data = true
    ∧ get_transactions_for_account sample_db 99 10 = [] :=
  ⟨(transactions_sorted_descending sample_db 1 10).2.1
      ⟨2, 1, 50, "Withdrawal", "2024-01-03T00:00:00", "groceries"⟩
      ⟨1, 1, 100, "Deposit", "2024-01-02T00:00:00", "salary"⟩
      (by decide) (by decide),
   (transactions_sorted_descending sample_db 99 10).2.2 (by decide)⟩

/-- C10: with the empty search string the LIKE pattern becomes `%%`, which
matches every customer row, so the query returns the table's first row; on
a non-empty customers table the result is a row, not `none`. -/
theorem get_customer_by_name_empty_matches_all (db : Database) :
    (db.customers.filter fun row => pyContains (pyLower row.name) (pyLower "")) = db.customers
    ∧ get_customer_by_name db "" = db.customers.head?
    ∧ (db.customers ≠ [] → (get_customer_by_name db "").isSome = true) := by
  have hall : (db.customers.filter fun row => pyContains (pyLower row.name) (pyLower "")) = db.customers :=
    List.filter_eq_self.mpr fun c _ => listContainsSub_nil_pat (pyLower c.name).data
  have hhead : get_customer_by_name db "" = db.customers.head? := by
    unfold get_customer_by_name
    rw [hall]
  refine ⟨hall, hhead, ?_⟩
  intro hne
  rw [hhead]
  cases hdb : db.customers with
  | nil => exact absurd hdb hne
  | cons x xs => rfl

/-- Witness for C10: on the sample database (one customer) the empty-name
query returns a row. -/
theorem get_customer_by_name_empty_matches_all_witness :
    (get_customer_by_name sample_db "").isSome = true :=
  (get_customer_by_name_empty_matches_all sample_db).2.2 (by decide)

end BankingChat
